import Mathlib

/-!
Verification of the `libmemory` native allocation shim
(`src/libmemory/native_memory.c` / `native_memory.h`).

The shim consists of three functions that forward directly to the host
platform's standard allocator:

  void* native_malloc(size_t size)              { return malloc(size); }
  void* native_calloc(size_t count, size_t size){ return calloc(count, size); }
  void  native_free(void* ptr)                  { free(ptr); }

The shim itself performs no bookkeeping, validation, or transformation of
arguments or results.  Its observable behaviour is therefore exactly the
behaviour of the platform allocator, which we model below following the
ISO C semantics of `malloc`/`calloc`/`free` (C17 §7.22.3):

  * the allocator is modelled as a deterministic bump allocator over an
    explicit heap state, with a `capacity` field standing for the amount of
    memory the backing page provider can still supply (so allocation fails,
    i.e. returns a null pointer, exactly when the requested size exceeds the
    remaining capacity);
  * addresses handed out are non-null and aligned to `max_align_t`
    (16 bytes on the modelled LP64 platform);
  * the contents of a `malloc`ed block are indeterminate; the model fixes
    them to the junk byte 0xAA so that "indeterminate" is observably
    different from the all-zero contents `calloc` guarantees;
  * `calloc count size` checks whether `count * size` wraps the platform
    size representation (`size_t`, 64 bits on the modelled platform) and
    returns a null pointer without allocating anything when it does,
    exactly as it does when memory is exhausted;
  * `free` of a null pointer is a no-op; `free` of any other pointer that
    is not currently allocated has no defined behaviour in ISO C, which the
    model records with an explicit `undefinedBehavior` result.
-/

namespace LibMemory

/-- A single allocated block: its size in bytes and its byte contents
(`bytes.length = size` for blocks produced by the model allocator). -/
structure Block where
  size : Nat
  bytes : List Nat
deriving DecidableEq

/-- The allocator state: the currently allocated blocks as an association
list from address to block, a bump pointer from which fresh addresses are
carved, and the number of bytes the backing page provider can still
supply. -/
structure Heap where
  blocks : List (Nat × Block)
  nextAddr : Nat
  capacity : Nat
deriving DecidableEq

/-- The block currently allocated at address `a`, if any. -/
def Heap.lookup (h : Heap) (a : Nat) : Option Block :=
  h.blocks.lookup a

/-- The size of the block currently allocated at address `a`, if any. -/
def Heap.sizeAt (h : Heap) (a : Nat) : Option Nat :=
  (h.lookup a).map Block.size

/-- The byte contents of the block currently allocated at address `a`
(empty if no block is allocated there). -/
def Heap.bytesAt (h : Heap) (a : Nat) : List Nat :=
  ((h.lookup a).map Block.bytes).getD []

/-- Alignment of `max_align_t` on the modelled platform: 16 bytes
(x86-64 LP64). -/
def maxAlign : Nat := 16

/-- Bit width of the platform size representation `size_t`:
64 bits on the modelled platform. -/
def sizeBits : Nat := 64

/-- Round `a` up to the next multiple of `k`. -/
def alignUp (a k : Nat) : Nat := k * ((a + k - 1) / k)

/-- The address the model allocator hands out next: the bump pointer,
advanced past the previous block and rounded up to `maxAlign`.  The `+ 1`
guarantees the address is non-null and distinct from every previously
issued address. -/
def freshAddr (h : Heap) : Nat := alignUp (h.nextAddr + 1) maxAlign

/-- Model of the platform `malloc` (ISO C17 §7.22.3.4) the shim forwards
to: if the page provider can supply `size` bytes, a fresh non-null
`maxAlign`-aligned address is returned together with the heap extended by a
block of exactly `size` bytes of indeterminate (junk `0xAA`) contents;
otherwise the null result is returned and the heap is untouched. -/
def malloc (h : Heap) (size : Nat) : Option Nat × Heap :=
  if size ≤ h.capacity then
    let addr := freshAddr h
    (some addr,
      { blocks := (addr, ⟨size, List.replicate size 170⟩) :: h.blocks,
        nextAddr := addr + size,
        capacity := h.capacity - size })
  else (none, h)

/-- Model of the platform `calloc` (ISO C17 §7.22.3.2) the shim forwards
to: if `count * size` wraps the platform size representation the null
result is returned without allocating anything; otherwise it behaves as an
allocation of `count * size` bytes whose contents are all zero. -/
def calloc (h : Heap) (count size : Nat) : Option Nat × Heap :=
  if count * size < 2 ^ sizeBits then
    if count * size ≤ h.capacity then
      let addr := freshAddr h
      (some addr,
        { blocks := (addr, ⟨count * size, List.replicate (count * size) 0⟩) :: h.blocks,
          nextAddr := addr + count * size,
          capacity := h.capacity - count * size })
    else (none, h)
  else (none, h)

/-- Result of the platform `free`: either a defined successor heap, or the
marker that ISO C assigns no behaviour at all to the call (freeing a
pointer that is neither null nor currently allocated, C17 §7.22.3.3). -/
inductive FreeResult where
  | ok (h : Heap)
  | undefinedBehavior
deriving DecidableEq

/-- Model of the platform `free` (ISO C17 §7.22.3.3) the shim forwards to:
`free(NULL)` is a no-op; freeing a currently allocated address removes the
block and returns its bytes to the page provider; freeing any other
pointer has undefined behaviour. -/
def free (h : Heap) (ptr : Nat) : FreeResult :=
  if ptr = 0 then .ok h
  else
    match h.lookup ptr with
    | some b =>
        .ok { blocks := h.blocks.filter (fun e => e.1 != ptr),
              nextAddr := h.nextAddr,
              capacity := h.capacity + b.size }
    | none => .undefinedBehavior

/-- Shim function `native_malloc` (src/libmemory/native_memory.c lines
7–10): `return malloc(size);`. -/
def native_malloc (h : Heap) (size : Nat) : Option Nat × Heap :=
  malloc h size

/-- Shim function `native_calloc` (src/libmemory/native_memory.c lines
12–15): `return calloc(count, size);`. -/
def native_calloc (h : Heap) (count size : Nat) : Option Nat × Heap :=
  calloc h count size

/-- Shim function `native_free` (src/libmemory/native_memory.c lines
17–20): `free(ptr);`. -/
def native_free (h : Heap) (ptr : Nat) : FreeResult :=
  free h ptr

/-- An empty initial heap whose page provider can supply 1000 bytes;
used as the concrete state for witnesses and counterexamples. -/
def h0 : Heap := { blocks := [], nextAddr := 0, capacity := 1000 }

/-- An empty heap whose page provider can supply only 10 bytes;
used to exhibit out-of-memory failures. -/
def hSmall : Heap := { blocks := [], nextAddr := 0, capacity := 10 }

/-- Addresses rounded up to `maxAlign` are multiples of `maxAlign`. -/
theorem alignUp_mod_maxAlign (a : Nat) : alignUp a maxAlign % maxAlign = 0 := by
  simp [alignUp, Nat.mul_mod_right]

/-- Every address the model allocator hands out is a multiple of
`maxAlign`. -/
theorem freshAddr_mod_maxAlign (h : Heap) : freshAddr h % maxAlign = 0 :=
  alignUp_mod_maxAlign _

/-- Every address the model allocator hands out is non-null. -/
theorem freshAddr_pos (h : Heap) : 0 < freshAddr h := by
  unfold freshAddr alignUp maxAlign
  have h1 : 1 ≤ (h.nextAddr + 1 + 16 - 1) / 16 := by
    rw [Nat.le_div_iff_mul_le (by norm_num)]
    omega
  omega

/-- Filtering out every entry at key `p` makes lookup of `p` fail. -/
theorem lookup_filter_ne (l : List (Nat × Block)) (p : Nat) :
    (l.filter (fun e => e.1 != p)).lookup p = none := by
  induction l with
  | nil => rfl
  | cons e t ih =>
    by_cases he : e.1 = p
    · simpa [List.filter_cons, he] using ih
    · simpa [List.filter_cons, bne_iff_ne, he, List.lookup_cons, beq_iff_eq,
        Ne.symm he] using ih

/-- C1: for every `count` and `size` whose product does not overflow the
platform size representation, `native_calloc h count size` behaves
equivalently to `native_malloc h (count * size)` with the returned region
pre-zeroed: the success/failure result, the bump pointer, and the
remaining provider capacity all agree with those of the plain allocation,
and every byte of the returned region is zero. -/
theorem native_calloc_equiv_malloc_zeroed (h : Heap) (count size : Nat)
    (hov : count * size < 2 ^ sizeBits) :
    (native_calloc h count size).1 = (native_malloc h (count * size)).1 ∧
    ((native_calloc h count size).2).nextAddr
      = ((native_malloc h (count * size)).2).nextAddr ∧
    ((native_calloc h count size).2).capacity
      = ((native_malloc h (count * size)).2).capacity ∧
    ∀ p, (native_calloc h count size).1 = some p →
      ((native_calloc h count size).2).bytesAt p
        = List.replicate (count * size) 0 := by
  unfold native_calloc native_malloc calloc malloc
  rw [if_pos hov]
  by_cases hc : count * size ≤ h.capacity
  · rw [if_pos hc, if_pos hc]
    refine ⟨rfl, rfl, rfl, ?_⟩
    intro p hp
    simp only [Option.some.injEq] at hp
    subst hp
    simp [Heap.bytesAt, Heap.lookup, List.lookup_cons]
  · rw [if_neg hc, if_neg hc]
    exact ⟨rfl, rfl, rfl, fun p hp => by simp at hp⟩

/-- Witness for C1 at `h0`, `count = 2`, `size = 3`. -/
theorem native_calloc_equiv_malloc_zeroed_witness :
    (native_calloc h0 2 3).1 = (native_malloc h0 (2 * 3)).1 ∧
    ((native_calloc h0 2 3).2).nextAddr = ((native_malloc h0 (2 * 3)).2).nextAddr ∧
    ((native_calloc h0 2 3).2).capacity = ((native_malloc h0 (2 * 3)).2).capacity ∧
    ∀ p, (native_calloc h0 2 3).1 = some p →
      ((native_calloc h0 2 3).2).bytesAt p = List.replicate (2 * 3) 0 :=
  native_calloc_equiv_malloc_zeroed h0 2 3 (by norm_num [sizeBits])

/-- C2 counterexample: `zero_allocate` does NOT fail with a
distinguishable `IntegerOverflow` error.  At the concrete overflowing
input `count = 2^63`, `size = 4` the call fails, but its failure result is
the plain null pointer — literally the same observable value an ordinary
out-of-memory failure (here `calloc(1, 100)` against a 10-byte provider)
produces.  The shim's return type carries no error channel at all, so the
caller cannot distinguish overflow from exhaustion. -/
theorem native_calloc_overflow_indistinguishable :
    2 ^ sizeBits ≤ 2 ^ 63 * 4 ∧
    (native_calloc h0 (2 ^ 63) 4).1 = none ∧
    1 * 100 < 2 ^ sizeBits ∧
    hSmall.capacity < 1 * 100 ∧
    (native_calloc hSmall 1 100).1 = none ∧
    (native_calloc h0 (2 ^ 63) 4).1 = (native_calloc hSmall 1 100).1 := by
  refine ⟨by norm_num [sizeBits], ?_, by norm_num [sizeBits], by decide, ?_, ?_⟩ <;>
    · unfold native_calloc calloc
      norm_num [sizeBits, hSmall]

/-- C2 amended: when `count * size` overflows the platform size
representation, `native_calloc` fails — it returns the null result, the
same failure value as out-of-memory, with no distinguishable error code —
and never returns a truncated allocation: the heap is untouched, so no
block of any size is handed out. -/
theorem native_calloc_overflow_fails (h : Heap) (count size : Nat)
    (hov : 2 ^ sizeBits ≤ count * size) :
    (native_calloc h count size).1 = none ∧
    (native_calloc h count size).2 = h := by
  unfold native_calloc calloc
  rw [if_neg (by omega)]
  exact ⟨rfl, rfl⟩

/-- Witness for the amended C2 at `h0`, `count = 2^63`, `size = 4`. -/
theorem native_calloc_overflow_fails_witness :
    2 ^ sizeBits ≤ 2 ^ 63 * 4 ∧
    ((native_calloc h0 (2 ^ 63) 4).1 = none ∧
     (native_calloc h0 (2 ^ 63) 4).2 = h0) :=
  ⟨by norm_num [sizeBits],
   native_calloc_overflow_fails h0 (2 ^ 63) 4 (by norm_num [sizeBits])⟩

/-- C3 counterexample: a second `free` of the same pointer does NOT fail
fatally with a loud `InvalidFree`.  Concretely: allocate 8 bytes from
`h0` (returning address 16), free it once (well-defined), free it again —
the second call falls into the case ISO C assigns no behaviour to
(C17 §7.22.3.3).  The shim performs no validation, so nothing guarantees a
loud failure; silent corruption is among the permitted outcomes, which is
exactly what the claim rules out. -/
theorem native_free_double_free_undefined :
    (native_malloc h0 8).1 = some 16 ∧
    native_free (native_malloc h0 8).2 16
      = FreeResult.ok { blocks := [], nextAddr := 24, capacity := 1000 } ∧
    native_free { blocks := [], nextAddr := 24, capacity := 1000 } 16
      = FreeResult.undefinedBehavior := by
  refine ⟨?_, ?_, ?_⟩ <;> decide

/-- C3 amended: the shim performs no invalid-free detection.  For every
pointer returned by `allocate`, exactly the first `free` is well-defined;
a second `free` of the same pointer has undefined behaviour (the shim
forwards it to platform `free`, to which ISO C assigns no behaviour), not
a guaranteed fatal `InvalidFree`. -/
theorem native_free_second_free_undefined (h : Heap) (s p : Nat) (h1 : Heap)
    (halloc : native_malloc h s = (some p, h1)) :
    ∃ h2, native_free h1 p = FreeResult.ok h2 ∧
      native_free h2 p = FreeResult.undefinedBehavior := by
  unfold native_malloc malloc at halloc
  by_cases hc : s ≤ h.capacity
  · rw [if_pos hc] at halloc
    simp only [Prod.mk.injEq, Option.some.injEq] at halloc
    obtain ⟨hp, hh1⟩ := halloc
    have hp0 : p ≠ 0 := by
      have := freshAddr_pos h
      omega
    have hlk : h1.lookup p = some ⟨s, List.replicate s 170⟩ := by
      rw [← hh1, Heap.lookup, ← hp]
      simp [List.lookup_cons]
    refine ⟨{ blocks := h1.blocks.filter (fun e => e.1 != p),
              nextAddr := h1.nextAddr,
              capacity := h1.capacity + s }, ?_, ?_⟩
    · unfold native_free free
      rw [if_neg hp0, hlk]
    · unfold native_free free
      rw [if_neg hp0]
      simp only [Heap.lookup]
      rw [lookup_filter_ne]
  · rw [if_neg hc] at halloc
    simp at halloc

/-- Witness for the amended C3 at `h0`, `size = 8`, yielding address 16. -/
theorem native_free_second_free_undefined_witness :
    ∃ h2, native_free (native_malloc h0 8).2 16 = FreeResult.ok h2 ∧
      native_free h2 16 = FreeResult.undefinedBehavior :=
  native_free_second_free_undefined h0 8 16 (native_malloc h0 8).2 (by decide)

/-- C4 counterexample: `allocate(0)` is NOT rejected with an
`InvalidArgument` failure.  Concretely, from the initial heap the call
returns the ordinary non-null pointer 16 to a zero-size allocation, and
that pointer can subsequently be freed like any other allocation. -/
theorem native_malloc_zero_not_rejected :
    (native_malloc h0 0).1 = some 16 ∧
    native_free (native_malloc h0 0).2 16
      = FreeResult.ok { blocks := [], nextAddr := 16, capacity := 1000 } := by
  refine ⟨?_, ?_⟩ <;> decide

/-- C4 amended: `allocate(0)` is forwarded unchecked to the platform
`malloc`, which (on the modelled platform, as ISO C permits) returns an
ordinary non-null, aligned, freeable pointer to a zero-size allocation —
there is no `InvalidArgument` rejection and no documented sentinel in the
shim. -/
theorem native_malloc_zero_allocates (h : Heap) :
    ∃ p h1, native_malloc h 0 = (some p, h1) ∧ p ≠ 0 ∧
      p % maxAlign = 0 ∧ ∃ h2, native_free h1 p = FreeResult.ok h2 := by
  have hp0 : freshAddr h ≠ 0 := by
    have := freshAddr_pos h
    omega
  refine ⟨freshAddr h,
    { blocks := (freshAddr h, ⟨0, List.replicate 0 170⟩) :: h.blocks,
      nextAddr := freshAddr h + 0,
      capacity := h.capacity - 0 }, ?_, hp0, freshAddr_mod_maxAlign h, ?_⟩
  · unfold native_malloc malloc
    rw [if_pos (Nat.zero_le _)]
  · have hlk : Heap.lookup
        { blocks := (freshAddr h, (⟨0, List.replicate 0 170⟩ : Block)) :: h.blocks,
          nextAddr := freshAddr h + 0,
          capacity := h.capacity - 0 } (freshAddr h)
        = some ⟨0, List.replicate 0 170⟩ := by
      rw [Heap.lookup]
      simp [List.lookup_cons]
    refine ⟨{ blocks := ((freshAddr h, (⟨0, List.replicate 0 170⟩ : Block)) :: h.blocks).filter
                (fun e => e.1 != freshAddr h),
              nextAddr := freshAddr h + 0,
              capacity := (h.capacity - 0) + 0 }, ?_⟩
    unfold native_free free
    rw [if_neg hp0, hlk]

/-- C5: `allocate(size)` either returns a (non-null) pointer or fails,
and it fails exactly when the backing page provider cannot supply the
requested bytes (out of memory); the failure is the explicit null result
handed back to the caller, with nothing retried — in particular the heap
is untouched on failure. -/
theorem native_malloc_fails_iff_out_of_memory (h : Heap) (size : Nat) :
    ((native_malloc h size).1 = none ↔ h.capacity < size) ∧
    ((native_malloc h size).1 = none → (native_malloc h size).2 = h) ∧
    ∀ p, (native_malloc h size).1 = some p → p ≠ 0 := by
  unfold native_malloc malloc
  by_cases hc : size ≤ h.capacity
  · rw [if_pos hc]
    refine ⟨by simp; omega, by simp, ?_⟩
    intro p hp
    simp only [Option.some.injEq] at hp
    have := freshAddr_pos h
    omega
  · rw [if_neg hc]
    exact ⟨by simp; omega, fun _ => rfl, fun p hp => by simp at hp⟩

/-- Witness for C5 at `h0` with `size = 2000` (which exceeds the 1000-byte
provider capacity of `h0`). -/
theorem native_malloc_fails_iff_out_of_memory_witness :
    ((native_malloc h0 2000).1 = none ↔ h0.capacity < 2000) ∧
    ((native_malloc h0 2000).1 = none → (native_malloc h0 2000).2 = h0) ∧
    ∀ p, (native_malloc h0 2000).1 = some p → p ≠ 0 :=
  native_malloc_fails_iff_out_of_memory h0 2000

/-- C6: a successful `allocate(S)` returns a region of at least `S` usable
bytes whose address is aligned to the platform's maximum primitive
alignment (`max_align_t`, 16 bytes on the modelled platform). -/
theorem native_malloc_size_and_alignment (h : Heap) (s p : Nat) (h1 : Heap)
    (halloc : native_malloc h s = (some p, h1)) :
    p % maxAlign = 0 ∧ ∃ n, h1.sizeAt p = some n ∧ s ≤ n := by
  unfold native_malloc malloc at halloc
  by_cases hc : s ≤ h.capacity
  · rw [if_pos hc] at halloc
    simp only [Prod.mk.injEq, Option.some.injEq] at halloc
    obtain ⟨hp, hh1⟩ := halloc
    subst hp
    refine ⟨freshAddr_mod_maxAlign h, s, ?_, le_refl s⟩
    rw [← hh1, Heap.sizeAt, Heap.lookup]
    simp [List.lookup_cons]
  · rw [if_neg hc] at halloc
    simp at halloc

/-- Witness for C6 at `h0`, `size = 8`, yielding address 16. -/
theorem native_malloc_size_and_alignment_witness :
    16 % maxAlign = 0 ∧
    ∃ n, ((native_malloc h0 8).2).sizeAt 16 = some n ∧ 8 ≤ n :=
  native_malloc_size_and_alignment h0 8 16 (native_malloc h0 8).2 (by decide)

/-- C7: every allocation request is atomic.  On failure the heap is
exactly the heap before the request (as if the request had not been made);
on success a full block of exactly the requested size, with contents of
the requested length, is present at the returned address — never a
partial allocation, and never both a pointer and a failure. -/
theorem allocation_atomic (h : Heap) (s count size : Nat) :
    ((native_malloc h s).1 = none → (native_malloc h s).2 = h) ∧
    (∀ p, (native_malloc h s).1 = some p →
      ((native_malloc h s).2).sizeAt p = some s ∧
      (((native_malloc h s).2).bytesAt p).length = s) ∧
    ((native_calloc h count size).1 = none →
      (native_calloc h count size).2 = h) ∧
    (∀ p, (native_calloc h count size).1 = some p →
      ((native_calloc h count size).2).sizeAt p = some (count * size) ∧
      (((native_calloc h count size).2).bytesAt p).length = count * size) := by
  refine ⟨?_, ?_, ?_, ?_⟩
  · unfold native_malloc malloc
    by_cases hc : s ≤ h.capacity
    · rw [if_pos hc]
      simp
    · rw [if_neg hc]
      exact fun _ => rfl
  · unfold native_malloc malloc
    by_cases hc : s ≤ h.capacity
    · rw [if_pos hc]
      intro p hp
      simp only [Option.some.injEq] at hp
      subst hp
      constructor
      · rw [Heap.sizeAt, Heap.lookup]
        simp [List.lookup_cons]
      · rw [Heap.bytesAt, Heap.lookup]
        simp [List.lookup_cons]
    · rw [if_neg hc]
      intro p hp
      simp at hp
  · unfold native_calloc calloc
    by_cases hov : count * size < 2 ^ sizeBits
    · rw [if_pos hov]
      by_cases hc : count * size ≤ h.capacity
      · rw [if_pos hc]
        simp
      · rw [if_neg hc]
        exact fun _ => rfl
    · rw [if_neg hov]
      exact fun _ => rfl
  · unfold native_calloc calloc
    by_cases hov : count * size < 2 ^ sizeBits
    · rw [if_pos hov]
      by_cases hc : count * size ≤ h.capacity
      · rw [if_pos hc]
        intro p hp
        simp only [Option.some.injEq] at hp
        subst hp
        constructor
        · rw [Heap.sizeAt, Heap.lookup]
          simp [List.lookup_cons]
        · rw [Heap.bytesAt, Heap.lookup]
          simp [List.lookup_cons]
      · rw [if_neg hc]
        intro p hp
        simp at hp
    · rw [if_neg hov]
      intro p hp
      simp at hp

/-- Witness for C7 at `h0` with `malloc 5` and `calloc 2 3`. -/
theorem allocation_atomic_witness :
    ((native_malloc h0 5).1 = none → (native_malloc h0 5).2 = h0) ∧
    (∀ p, (native_malloc h0 5).1 = some p →
      ((native_malloc h0 5).2).sizeAt p = some 5 ∧
      (((native_malloc h0 5).2).bytesAt p).length = 5) ∧
    ((native_calloc h0 2 3).1 = none → (native_calloc h0 2 3).2 = h0) ∧
    (∀ p, (native_calloc h0 2 3).1 = some p →
      ((native_calloc h0 2 3).2).sizeAt p = some (2 * 3) ∧
      (((native_calloc h0 2 3).2).bytesAt p).length = 2 * 3) :=
  allocation_atomic h0 5 2 3

/-- C9: the shim is observationally identical to the platform allocator it
forwards to — `native_malloc` is exactly `malloc`, `native_calloc` is
exactly `calloc`, and `native_free` is exactly `free`, on every heap state
and every argument, with no additional bookkeeping, validation, or
transformation. -/
theorem shim_refines_platform_allocator (h : Heap) (s count size p : Nat) :
    native_malloc h s = malloc h s ∧
    native_calloc h count size = calloc h count size ∧
    native_free h p = free h p :=
  ⟨rfl, rfl, rfl⟩

/-- C10: `free(NULL)` is accepted and performs no action: the call is
well-defined and leaves the heap exactly as it was. -/
theorem native_free_null_noop (h : Heap) :
    native_free h 0 = FreeResult.ok h := by
  unfold native_free free
  rw [if_pos rfl]

end LibMemory
